import Mathlib

set_option maxRecDepth 40000

/-!
Shallow embedding of the plugin-registry / unique-sample-generation core of
the `tgas` repository, together with proofs about the claims of its
specification.

Each definition below is translated from one function of the Python source;
the source file and line range are cited next to the definition.  Machine
randomness (`random.choice`, the LSTM sampler, subprocess output) is
abstracted as an explicit stream parameter (`Nat → String`, `Nat → Char`,
`Nat → List String`): the n-th value of the stream is the n-th value the
external source hands to the loop.  Unbounded `while` loops are embedded
with an explicit fuel argument; `none` means the loop is still running after
`fuel` iterations, so `∀ fuel, … = none` states non-termination.
-/

/-- The stream of candidate values fed to a sampling loop.  Abstracts
`sample_ip(random.choice(patterns))` in `sixgen.py` and `self.generate()`
in `lstm_tga.py`: the candidate space of the producer is the range of the
stream. -/
def Producer : Type := Nat → String

/-- Window of the `fuel` values a producer yields starting at call index `k`.
Used to state how many distinct candidates the producer actually offers to
a loop. -/
def producedWindow (produce : Nat → String) (k : Nat) : Nat → List String
  | 0 => []
  | f + 1 => produce k :: producedWindow produce (k + 1) f

/-- `src/_old/tgas/sixgen.py` lines 35-44 (`SixGenTGA.generate`): the loop
`while len(unique_ips) < count:` draws one candidate, inserts it into the
set if new and advances the progress bar by 1.  `seen` is the set in
insertion order, `events` the list of progress increments, `k` the index of
the next draw.  The Python loop has no iteration cap; `fuel` bounds the
embedding and `none` means the loop has not finished within `fuel`
iterations. -/
def sixgenRun (produce : Nat → String) (count : Nat) :
    Nat → Nat → List String → List Nat → Option (List String × List Nat)
  | _, 0, seen, events =>
    if count ≤ seen.length then some (seen, events) else none
  | k, fuel + 1, seen, events =>
    if count ≤ seen.length then some (seen, events)
    else
      if produce k ∈ seen then
        sixgenRun produce count (k + 1) fuel seen events
      else
        sixgenRun produce count (k + 1) fuel (seen ++ [produce k]) (events ++ [1])

/-- `SixGenTGA.generate`, started on the empty set, as in the source. -/
def sixgen_generate (produce : Nat → String) (count fuel : Nat) :
    Option (List String × List Nat) :=
  sixgenRun produce count 0 fuel [] []

/-- `src/tga/python/lstm_tga.py` lines 138-147 (`LSTMIPv6TGA.generate_unique`
body): `while len(addresses) < count and attempts < max_attempts:` draws
`self.generate()`, adds it to the set, increments `attempts`, and finally
returns `list(addresses)` — with no error on exhaustion.  `remaining` is
`max_attempts - attempts`. -/
def lstmRun (produce : Nat → String) (count : Nat) :
    Nat → Nat → List String → List String
  | _, 0, addresses => addresses
  | attempts, remaining + 1, addresses =>
    if count ≤ addresses.length then addresses
    else
      lstmRun produce count (attempts + 1) remaining
        (if produce attempts ∈ addresses then addresses
         else addresses ++ [produce attempts])

/-- `LSTMIPv6TGA.generate_unique` with `max_attempts = count * 100`
(line 140) and an empty starting set. -/
def lstm_generate_unique (produce : Nat → String) (count : Nat) : List String :=
  lstmRun produce count 0 (count * 100) []

/-- Python-level errors raised by the TGA code. -/
inductive PyError : Type
  /-- `ValueError` — in `lstm_tga.py` raised with "Model not trained". -/
  | valueError : PyError
  /-- `FileNotFoundError` — raised when a provisioned path is missing. -/
  | fileNotFoundError : PyError
  /-- `InvalidCount` — the error the spec prescribes for `count == 0`;
  it appears nowhere in the source, the constructor exists only so that
  its absence from the code's behaviour can be stated. -/
  | invalidCount : PyError
deriving DecidableEq

/-- `src/tga/python/lstm_tga.py` lines 133-147 (`generate_unique` including
its model precondition): `if self.model is None: raise ValueError("Model not
trained")`, otherwise run the sampling loop.  The trained model is abstracted
as the stream of addresses its sampler emits. -/
def lstm_generate_unique_m (model : Option (Nat → String)) (count : Nat) :
    Except PyError (List String) :=
  match model with
  | none => .error .valueError
  | some produce => .ok (lstmRun produce count 0 (count * 100) [])

/-- `src/_old/tgas/sixveclm.py` lines 85-88: the inner `for ip in ips:` loop
inserting every non-empty unseen candidate of one batch. -/
def sixveclmBatchInsert (unique : List String) (ips : List String) : List String :=
  ips.foldl (fun acc ip => if ip ≠ "" ∧ ip ∉ acc then acc ++ [ip] else acc) unique

/-- `src/_old/tgas/sixveclm.py` lines 79-90 (`SixVecLM.generate`): the loop
`while len(unique_ips) < count:` fetches one batch, inserts its members, and
then calls `pbar.update(len(unique_ips))` — one progress event per batch,
advancing by the cumulative set size.  Returns `list(unique_ips)[:count]`.
`batches k` is the k-th result of `self.generate_batch()`. -/
def sixveclmRun (batches : Nat → List String) (count : Nat) :
    Nat → Nat → List String → List Nat → Option (List String × List Nat)
  | _, 0, unique, events =>
    if count ≤ unique.length then some (unique.take count, events) else none
  | k, fuel + 1, unique, events =>
    if count ≤ unique.length then some (unique.take count, events)
    else
      let u := sixveclmBatchInsert unique (batches k)
      sixveclmRun batches count (k + 1) fuel u (events ++ [u.length])

/-- `SixVecLM.generate` started on the empty set. -/
def sixveclm_generate (batches : Nat → List String) (count fuel : Nat) :
    Option (List String × List Nat) :=
  sixveclmRun batches count 0 fuel [] []

/-- `src/tgas/sixforest.py` line 101: fill every `'*'` of a pattern with the
next value of the random-digit stream (`random.choice('0123456789abcdef')`),
other characters are kept.  Returns the filled characters and the number of
stream values consumed so far. -/
def sixforestFill (digits : Nat → Char) : List Char → Nat → List Char × Nat
  | [], used => ([], used)
  | c :: cs, used =>
    if c = '*' then
      let r := sixforestFill digits cs (used + 1)
      (digits used :: r.1, r.2)
    else
      let r := sixforestFill digits cs used
      (c :: r.1, r.2)

/-- `src/tgas/sixforest.py` line 103: `full_address[i:i+4] for i in
range(0, len, 4)` — split the characters into groups of four. -/
def chunk4 : List Char → List (List Char)
  | [] => []
  | [a] => [[a]]
  | [a, b] => [[a, b]]
  | [a, b, c] => [[a, b, c]]
  | a :: b :: c :: d :: rest => [a, b, c, d] :: chunk4 rest

/-- `src/tgas/sixforest.py` line 103: `':'.join(...)` over the groups of
four characters. -/
def colonize (l : List Char) : List Char :=
  List.intercalate [':'] (chunk4 l)

/-- `src/tgas/sixforest.py` lines 98-104: the inner `for partial in
partial_addresses:` loop.  Each pattern is filled from the digit stream and
the formatted address is appended to `full_addresses` — with no check
against duplicates. -/
def sixforestInner (digits : Nat → Char) (count : Nat) :
    List (List Char) → Nat → List String → List String × Nat
  | [], used, full => (full, used)
  | pat :: pats, used, full =>
    if count ≤ full.length then (full, used)
    else
      let r := sixforestFill digits pat used
      sixforestInner digits count pats r.2 (full ++ [String.mk (colonize r.1)])

/-- `src/tgas/sixforest.py` lines 96-106 (`SixForestTGA.generate`): the outer
`while len(full_addresses) < count:` loop around the pattern sweep, returning
`full_addresses[:count]`.  When `partial_addresses` is empty the Python loop
never ends; `fuel` bounds the embedding as for `sixgenRun`. -/
def sixforestLoop (digits : Nat → Char) (pats : List (List Char)) (count : Nat) :
    Nat → Nat → List String → Option (List String)
  | 0, _, _ => none
  | fuel + 1, used, full =>
    if count ≤ full.length then some (full.take count)
    else
      let r := sixforestInner digits count pats used full
      sixforestLoop digits pats count fuel r.2 r.1

/-- `SixForestTGA.generate` started with no addresses generated yet. -/
def sixforest_generate (digits : Nat → Char) (pats : List String)
    (count fuel : Nat) : Option (List String) :=
  sixforestLoop digits (pats.map String.toList) count fuel 0 []

/-- A fixed producer used to instantiate the generation theorems: yields
"a" on the first call and "b" on every later one, so its candidate space is
the two strings "a" and "b". -/
def abProduce : Nat → String :=
  fun k => if k = 0 then "a" else "b"

/-- A producer alternating between "a" and "b": candidate space of size 2. -/
def altProduce : Nat → String :=
  fun k => if k % 2 = 0 then "a" else "b"

/-- A digit stream for the sixforest fill that always chooses 'a'. -/
def constA : Nat → Char := fun _ => 'a'

/-- `src/core/registry.py` line 11: the plugin kinds the ipv6kit decorator
accepts. -/
def PLUGIN_KINDS : List String := ["dataset", "tga", "scanner", "analyze"]

/-- A registry is the association of `(kind, name)` keys to plugin
factories, most recent entry first (mirroring assignment into the nested
dictionary `PLUGINS[kind][name]`).  `F` is the type of factories (plugin
classes), left abstract. -/
abbrev Registry (F : Type) : Type := List ((String × String) × F)

/-- Lookup of `PLUGINS[kind][name]`: the most recently assigned factory for
the key, if any. -/
def regLookup {F : Type} : Registry F → String → String → Option F
  | [], _, _ => none
  | ((k, n), f) :: rest, kind, name =>
    if k = kind ∧ n = name then some f else regLookup rest kind name

/-- Errors raised by the ipv6kit registration decorator. -/
inductive RegError : Type
  /-- `ValueError` for a kind outside `PLUGIN_KINDS` (`registry.py` line 18). -/
  | unknownKind : RegError
  /-- `ValueError` "... is already registered" (`registry.py` line 27). -/
  | duplicateRegistration : RegError
deriving DecidableEq

/-- `src/core/registry.py` lines 13-37 (the `ipv6kit` decorator): reject an
unknown kind, reject a `(kind, name)` already present, otherwise add the
factory. -/
def ipv6kit_register {F : Type} (kind name : String) (factory : F)
    (reg : Registry F) : Except RegError (Registry F) :=
  if kind ∈ PLUGIN_KINDS then
    match regLookup reg kind name with
    | some _ => .error .duplicateRegistration
    | none => .ok (((kind, name), factory) :: reg)
  else .error .unknownKind

/-- `src/python/rmap/core/registry.py` lines 14-44 (the `rmap` decorator):
the kind check is commented out, and a `(kind, name)` already present is
only logged as a warning — the assignment `PLUGINS[kind][name] = cls`
happens unconditionally, overriding the old factory.  The returned `Bool`
records whether the override warning was emitted. -/
def rmap_register {F : Type} (kind name : String) (factory : F)
    (reg : Registry F) : Registry F × Bool :=
  (((kind, name), factory) :: reg, (regLookup reg kind name).isSome)

/-- Lookup in a flat name-keyed table (`dict.get` / `name in registry`). -/
def lookupName {G : Type} : List (String × G) → String → Option G
  | [], _ => none
  | (n, g) :: rest, name => if n = name then some g else lookupName rest name

/-- Outcome of `main()` in `src/main.py`. -/
inductive MainOutcome (P : Type) : Type
  /-- `sys.exit(code)` after printing to stderr. -/
  | exited (code : Nat) : MainOutcome P
  /-- The requested lifecycle method was invoked on the resolved plugin. -/
  | invoked (plugin : P) (action : String) : MainOutcome P
  /-- `parser.print_help()` for an unrecognised action. -/
  | helpPrinted : MainOutcome P

/-- Observable work performed while dispatching. -/
inductive DispatchEff : Type
  /-- The plugin's lifecycle method ran (any filesystem work happens here). -/
  | pluginActionRun (action : String) : DispatchEff
deriving DecidableEq

/-- `src/main.py` lines 216-251 (`main`): for the actions that need a TGA,
resolve `TGAS.get(tga_name)`; when the name is unknown, print to stderr and
`sys.exit(1)` before any plugin method runs.  The effect list records every
piece of plugin work performed. -/
def main_dispatch {P : Type} (tgas : List (String × P)) (action tgaName : String) :
    MainOutcome P × List DispatchEff :=
  if action = "initialize" ∨ action = "train" ∨ action = "generate" then
    match lookupName tgas tgaName with
    | none => (.exited 1, [])
    | some tga => (.invoked tga action, [.pluginActionRun action])
  else (.helpPrinted, [])

/-- Observable filesystem work of `train_tga_from_addresses`. -/
inductive TrainEff : Type
  /-- The pickled model was written to a fresh temporary file
  (`tga_registry.py` lines 62-64). -/
  | tempModelFileCreated : TrainEff
deriving DecidableEq

/-- Error raised by the TGA registry helpers. -/
inductive TgaRegError : Type
  /-- `ValueError` "Unknown TGA: ..." (`tga_registry.py` line 50). -/
  | unknownTga : TgaRegError
deriving DecidableEq

/-- `src/tga/python/tga_registry.py` lines 47-70
(`train_tga_from_addresses`): the registry membership test comes first and
raises before the addresses are parsed, the model is trained, or the
temporary model file is created.  Training itself is abstracted as the
factory's function from seed addresses to a model. -/
def train_tga_from_addresses {M : Type}
    (registry : List (String × (List String → M)))
    (tgaName : String) (addresses : List String) :
    Except TgaRegError M × List TrainEff :=
  match lookupName registry tgaName with
  | none => (.error .unknownTga, [])
  | some trainCls => (.ok (trainCls addresses), [.tempModelFileCreated])

/-- `src/python/rmap/core/models.py`: `AddressSet`. -/
structure AddressSet : Type where
  name : String
  description : Option String
  addresses : List String
deriving DecidableEq

/-- `src/python/rmap/scan/base.py`: one scan result row. -/
structure ScanResult : Type where
  address : String
  port : Nat
  protocol : String
  status : String
deriving DecidableEq

/-- `src/python/rmap/scan/base.py`: `ScanResultSet`. -/
structure ScanResultSet : Type where
  results : List ScanResult
  scan_name : Option String
deriving DecidableEq

/-- Exceptions the `BaseZmap6Scanner.scan` method can raise. -/
inductive PyExn : Type
  /-- `AttributeError`: the named attribute is not defined on the instance
  (the rmap `BasePlugin` defines none of the logging or progress helpers
  `scan` calls). -/
  | attributeError (attr : String) : PyExn
  /-- `NameError`: the bare name is bound in no scope — `progress_cb` is
  used throughout `scan` but never defined. -/
  | nameError (n : String) : PyExn
deriving DecidableEq

/-- A Python call result: a value or a raised exception. -/
inductive PyResult (A : Type) : Type
  | ok (val : A) : PyResult A
  | exn (e : PyExn) : PyResult A
deriving DecidableEq

/-- The temporary files visible to a scan call: `live` lists the ids of the
files currently on disk, `next` is the next fresh id
(`tempfile.NamedTemporaryFile(delete=False)` creates a fresh file). -/
structure Fs : Type where
  live : List Nat
  next : Nat
deriving DecidableEq

/-- Create a fresh temporary file; returns its id and the new state. -/
def fsCreate (fs : Fs) : Nat × Fs :=
  (fs.next, ⟨fs.live ++ [fs.next], fs.next + 1⟩)

/-- `os.remove(path)`: delete an existing file. -/
def osRemove (fs : Fs) (id : Nat) : Fs :=
  ⟨fs.live.erase id, fs.next⟩

/-- `src/python/rmap/scan/zmap6/base.py` lines 97-212
(`BaseZmap6Scanner.scan`).  `helpers` records whether the plugin base class
defines the logging/progress helper methods `scan` calls (`self.info`,
`self._progress_bars_enabled`, ...): the `rmap.core.plugin.BasePlugin` this
class actually extends defines none of them (`helpers = false`), while the
richer `src/core/plugin.py` base of the sibling revision does
(`helpers = true`).  The bare name `progress_cb` is bound in no scope of the
module, so every occurrence of `if progress_cb:` raises `NameError`.

Control flow, by line:
* empty `data.addresses` (lines 100-104): `self.info` (line 101) raises
  `AttributeError` without helpers; with helpers, `if progress_cb:`
  (line 102) raises `NameError`.  The intended
  `ScanResultSet(results=[], scan_name=...)` return on line 104 is never
  reached.
* non-empty input: `self._progress_bars_enabled` (line 109) raises
  `AttributeError` without helpers.  With helpers, the two temporary files
  are created (lines 116-117), the targets are written, and inside the
  `try:` block `if progress_cb:` (line 131) raises `NameError` — so the
  zmap6 subprocess (line 153) and the CSV parsing (lines 166-197) are
  unreachable.  The `finally:` block (lines 198-205) removes both temporary
  files before the exception propagates. -/
def zmap6_scan (helpers : Bool) (_scanName : String) (data : AddressSet)
    (fs : Fs) : PyResult ScanResultSet × Fs :=
  if data.addresses.isEmpty then
    if helpers then (.exn (.nameError "progress_cb"), fs)
    else (.exn (.attributeError "info"), fs)
  else
    if helpers = false then (.exn (.attributeError "_progress_bars_enabled"), fs)
    else
      let t := fsCreate fs
      let o := fsCreate t.2
      let bodyExn : PyExn := .nameError "progress_cb"
      let fs3 := osRemove o.2 t.1
      let fs4 := osRemove fs3 o.1
      (.exn bodyExn, fs4)

/-- Observable provisioning commands run by `TGA.clone` and
`TGA._initialize_python` (`src/tgas/base.py`). -/
inductive Eff : Type
  /-- `git clone <url> <path>` (line 212). -/
  | gitClone : Eff
  /-- `pyenv install --skip-existing <version>` (line 72). -/
  | pyenvInstall (version : String) : Eff
  /-- `rm -rf <venv>` for a mismatching virtual environment (line 69). -/
  | rmRfVenv : Eff
  /-- creation of the virtual environment with venv or virtualenv
  (lines 89-104). -/
  | createVenv (version : String) (x86 : Bool) : Eff
  /-- `pip install --upgrade pip <deps>` (`_install_dependencies`,
  lines 27-35). -/
  | pipInstall (deps : List String) : Eff
deriving DecidableEq

/-- The on-disk virtual environment of one TGA working directory:
the Python version it contains, whether it is an x86_64 build, and whether
its `bin/python` binary exists (line 48 checks this separately). -/
structure VenvState : Type where
  version : String
  x86 : Bool
  binOk : Bool
deriving DecidableEq

/-- The provisioned state of one `TGA` instance's working directory. -/
structure TgaState : Type where
  repoCloned : Bool
  venv : Option VenvState
deriving DecidableEq

/-- `src/tgas/base.py` lines 205-214 (`TGA.clone`): clone only when the
directory does not exist yet. -/
def tga_clone (s : TgaState) : TgaState × List Eff :=
  if s.repoCloned then (s, [])
  else ({ s with repoCloned := true }, [Eff.gitClone])

/-- `python_version.count('.')` (line 38). -/
def countDots (v : String) : Nat :=
  v.toList.count '.'

/-- `src/tgas/base.py` lines 37-114 (`TGA._initialize_python`):
* reject a version string without exactly two dots (`ValueError`, line 39);
* if a venv with a working python exists but its version or architecture
  mismatches, `rm -rf` it (lines 46-69);
* `pyenv install --skip-existing` (line 72);
* if no venv exists, create one for the requested version/architecture
  (lines 79-104; the python2/virtualenv and python3/venv branches both
  surface here as `createVenv`);
* fail with `FileNotFoundError` if the venv python is still missing
  (lines 107-109);
* install the dependencies plus `tqdm` (lines 112-113). -/
def tga_initialize_python (v : String) (deps : List String) (rosetta : Bool)
    (s : TgaState) : Except PyError (TgaState × List Eff) :=
  if countDots v ≠ 2 then .error .valueError
  else
    let removed : TgaState × List Eff :=
      match s.venv with
      | some vs =>
        if vs.binOk ∧ (vs.version ≠ v ∨ vs.x86 ≠ rosetta) then
          ({ s with venv := none }, [Eff.rmRfVenv])
        else (s, [])
      | none => (s, [])
    let s1 := removed.1
    let e1 := removed.2 ++ [Eff.pyenvInstall v]
    let created : TgaState × List Eff :=
      match s1.venv with
      | some _ => (s1, e1)
      | none => ({ s1 with venv := some ⟨v, rosetta, true⟩ }, e1 ++ [Eff.createVenv v rosetta])
    match created.1.venv with
    | some vs =>
      if vs.binOk then
        .ok (created.1, created.2 ++ [Eff.pipInstall (deps ++ ["tqdm"])])
      else .error .fileNotFoundError
    | none => .error .fileNotFoundError

/-- The setup/environment-preparation hook of a static TGA
(`SixForestTGA.initialize`, `src/tgas/sixforest.py` lines 18-22, and its
peers): clone the repository, then initialise the Python environment. -/
def tga_setup (v : String) (deps : List String) (rosetta : Bool)
    (s : TgaState) : Except PyError (TgaState × List Eff) :=
  let c := tga_clone s
  match tga_initialize_python v deps rosetta c.1 with
  | .ok st => .ok (st.1, c.2 ++ st.2)
  | .error e => .error e

/-! ## Helper lemmas about the sampling loops -/

theorem sixgenRun_complete (produce : Nat → String) (count : Nat) :
    ∀ (fuel k : Nat) (seen : List String) (events : List Nat),
      seen.Nodup → seen.length ≤ count →
      count ≤ (seen ++ producedWindow produce k fuel).toFinset.card →
      ∃ s ev, sixgenRun produce count k fuel seen events = some (s, ev) ∧
        s.Nodup ∧ s.length = count := by
  intro fuel
  induction fuel with
  | zero =>
    intro k seen events hnd hle hcard
    simp only [producedWindow, List.append_nil] at hcard
    have hcf : seen.toFinset.card = seen.length := List.toFinset_card_of_nodup hnd
    have hlen : seen.length = count := by omega
    refine ⟨seen, events, ?_, hnd, hlen⟩
    simp [sixgenRun, hlen]
  | succ f ih =>
    intro k seen events hnd hle hcard
    by_cases hdone : count ≤ seen.length
    · exact ⟨seen, events, by simp [sixgenRun, hdone], hnd, by omega⟩
    · by_cases hmem : produce k ∈ seen
      · have hcard' :
            count ≤ (seen ++ producedWindow produce (k + 1) f).toFinset.card := by
          have he :
              (seen ++ producedWindow produce k (f + 1)).toFinset
                = (seen ++ producedWindow produce (k + 1) f).toFinset := by
            simp only [producedWindow, List.toFinset_append, List.toFinset_cons,
              Finset.union_insert]
            exact Finset.insert_eq_self.mpr
              (Finset.mem_union_left _ (List.mem_toFinset.mpr hmem))
          rw [he] at hcard
          exact hcard
        have := ih (k + 1) seen events hnd hle hcard'
        simpa [sixgenRun, hdone, hmem] using this
      · have hnd' : (seen ++ [produce k]).Nodup := by
          refine List.Nodup.append hnd (List.nodup_singleton _) ?_
          intro a ha hb
          simp only [List.mem_singleton] at hb
          subst hb
          exact hmem ha
        have hle' : (seen ++ [produce k]).length ≤ count := by
          simp only [List.length_append, List.length_singleton]
          omega
        have hcard' :
            count ≤ ((seen ++ [produce k]) ++ producedWindow produce (k + 1) f).toFinset.card := by
          have he : (seen ++ [produce k]) ++ producedWindow produce (k + 1) f
              = seen ++ producedWindow produce k (f + 1) := by
            simp [producedWindow, List.append_assoc]
          rw [he]
          exact hcard
        have := ih (k + 1) (seen ++ [produce k]) (events ++ [1]) hnd' hle' hcard'
        simpa [sixgenRun, hdone, hmem] using this

theorem sixgenRun_events (produce : Nat → String) (count : Nat) :
    ∀ (fuel k : Nat) (seen : List String) (events : List Nat)
      (s : List String) (ev : List Nat),
      events.length = seen.length → (∀ x ∈ events, x = 1) →
      seen.length ≤ count →
      sixgenRun produce count k fuel seen events = some (s, ev) →
      ev = List.replicate s.length 1 ∧ s.length = count := by
  intro fuel
  induction fuel with
  | zero =>
    intro k seen events s ev hlen hone hle hrun
    simp only [sixgenRun] at hrun
    by_cases hdone : count ≤ seen.length
    · rw [if_pos hdone] at hrun
      have hs' : s = seen := by
        cases hrun
        rfl
      have hev' : ev = events := by
        cases hrun
        rfl
      subst hs'
      subst hev'
      constructor
      · rw [List.eq_replicate_iff]
        exact ⟨by omega, hone⟩
      · omega
    · rw [if_neg hdone] at hrun
      cases hrun
  | succ f ih =>
    intro k seen events s ev hlen hone hle hrun
    by_cases hdone : count ≤ seen.length
    · simp only [sixgenRun, if_pos hdone] at hrun
      have hs' : s = seen := by
        cases hrun
        rfl
      have hev' : ev = events := by
        cases hrun
        rfl
      subst hs'
      subst hev'
      constructor
      · rw [List.eq_replicate_iff]
        exact ⟨by omega, hone⟩
      · omega
    · by_cases hmem : produce k ∈ seen
      · simp only [sixgenRun, if_neg hdone, if_pos hmem] at hrun
        exact ih (k + 1) seen events s ev hlen hone hle hrun
      · simp only [sixgenRun, if_neg hdone, if_neg hmem] at hrun
        refine ih (k + 1) (seen ++ [produce k]) (events ++ [1]) s ev ?_ ?_ ?_ hrun
        · simp only [List.length_append, List.length_singleton]
          omega
        · intro x hx
          rcases List.mem_append.mp hx with h | h
          · exact hone x h
          · simpa using h
        · simp only [List.length_append, List.length_singleton]
          omega

theorem lstmRun_nodup_subset (produce : Nat → String) (count : Nat) :
    ∀ (remaining attempts : Nat) (addresses : List String),
      addresses.Nodup →
      (lstmRun produce count attempts remaining addresses).Nodup ∧
      (lstmRun produce count attempts remaining addresses).toFinset ⊆
        addresses.toFinset ∪ (producedWindow produce attempts remaining).toFinset := by
  intro remaining
  induction remaining with
  | zero =>
    intro attempts addresses hnd
    exact ⟨hnd, by simp [lstmRun]⟩
  | succ r ih =>
    intro attempts addresses hnd
    by_cases hdone : count ≤ addresses.length
    · refine ⟨by simpa [lstmRun, hdone] using hnd, ?_⟩
      simp only [lstmRun, if_pos hdone]
      exact Finset.subset_union_left
    · by_cases hmem : produce attempts ∈ addresses
      · have h := ih (attempts + 1) addresses hnd
        refine ⟨by simpa [lstmRun, hdone, hmem] using h.1, ?_⟩
        have hsub := h.2
        simp only [lstmRun, if_neg hdone, if_pos hmem]
        refine hsub.trans ?_
        refine Finset.union_subset_union (le_refl _) ?_
        simp only [producedWindow, List.toFinset_cons]
        exact Finset.subset_insert _ _
      · have hnd' : (addresses ++ [produce attempts]).Nodup := by
          refine List.Nodup.append hnd (List.nodup_singleton _) ?_
          intro a ha hb
          simp only [List.mem_singleton] at hb
          subst hb
          exact hmem ha
        have h := ih (attempts + 1) (addresses ++ [produce attempts]) hnd'
        refine ⟨by simpa [lstmRun, hdone, hmem] using h.1, ?_⟩
        have hsub := h.2
        simp only [lstmRun, if_neg hdone, if_neg hmem, producedWindow]
        refine hsub.trans ?_
        intro a ha
        simp only [List.toFinset_append, List.toFinset_cons, List.toFinset_nil,
          Finset.mem_union, Finset.mem_insert, List.mem_toFinset,
          Finset.not_mem_empty, List.not_mem_nil, or_false, false_or] at ha ⊢
        tauto

theorem lstmRun_complete (produce : Nat → String) (count : Nat) :
    ∀ (remaining attempts : Nat) (addresses : List String),
      addresses.Nodup → addresses.length ≤ count →
      count ≤ (addresses ++ producedWindow produce attempts remaining).toFinset.card →
      (lstmRun produce count attempts remaining addresses).Nodup ∧
      (lstmRun produce count attempts remaining addresses).length = count := by
  intro remaining
  induction remaining with
  | zero =>
    intro attempts addresses hnd hle hcard
    simp only [producedWindow, List.append_nil] at hcard
    have hcf : addresses.toFinset.card = addresses.length :=
      List.toFinset_card_of_nodup hnd
    exact ⟨by simpa [lstmRun] using hnd, by simp [lstmRun]; omega⟩
  | succ r ih =>
    intro attempts addresses hnd hle hcard
    by_cases hdone : count ≤ addresses.length
    · exact ⟨by simpa [lstmRun, hdone] using hnd,
        by simp [lstmRun, hdone]; omega⟩
    · by_cases hmem : produce attempts ∈ addresses
      · have hcard' :
            count ≤ (addresses ++ producedWindow produce (attempts + 1) r).toFinset.card := by
          have he :
              (addresses ++ producedWindow produce attempts (r + 1)).toFinset
                = (addresses ++ producedWindow produce (attempts + 1) r).toFinset := by
            simp only [producedWindow, List.toFinset_append, List.toFinset_cons,
              Finset.union_insert]
            exact Finset.insert_eq_self.mpr
              (Finset.mem_union_left _ (List.mem_toFinset.mpr hmem))
          rw [he] at hcard
          exact hcard
        have h := ih (attempts + 1) addresses hnd (by omega) hcard'
        exact ⟨by simpa [lstmRun, hdone, hmem] using h.1,
          by simpa [lstmRun, hdone, hmem] using h.2⟩
      · have hnd' : (addresses ++ [produce attempts]).Nodup := by
          refine List.Nodup.append hnd (List.nodup_singleton _) ?_
          intro a ha hb
          simp only [List.mem_singleton] at hb
          subst hb
          exact hmem ha
        have hle' : (addresses ++ [produce attempts]).length ≤ count := by
          simp only [List.length_append, List.length_singleton]
          omega
        have hcard' :
            count ≤ ((addresses ++ [produce attempts]) ++
              producedWindow produce (attempts + 1) r).toFinset.card := by
          have he : (addresses ++ [produce attempts]) ++
              producedWindow produce (attempts + 1) r
              = addresses ++ producedWindow produce attempts (r + 1) := by
            simp [producedWindow, List.append_assoc]
          rw [he]
          exact hcard
        have h := ih (attempts + 1) (addresses ++ [produce attempts]) hnd' hle' hcard'
        exact ⟨by simpa [lstmRun, hdone, hmem] using h.1,
          by simpa [lstmRun, hdone, hmem] using h.2⟩

theorem sixgenRun_bounded (produce : Nat → String) (count : Nat)
    (S : Finset String) (hS : S.card < count) (hp : ∀ n, produce n ∈ S) :
    ∀ (fuel k : Nat) (seen : List String) (events : List Nat),
      seen.Nodup → (∀ x ∈ seen, x ∈ S) →
      sixgenRun produce count k fuel seen events = none := by
  intro fuel
  induction fuel with
  | zero =>
    intro k seen events hnd hsub
    have hcard : seen.length ≤ S.card := by
      have h1 : seen.toFinset ⊆ S := fun a ha => hsub a (List.mem_toFinset.mp ha)
      have h2 := Finset.card_le_card h1
      have h3 : seen.toFinset.card = seen.length := List.toFinset_card_of_nodup hnd
      omega
    simp only [sixgenRun]
    rw [if_neg (by omega)]
  | succ f ih =>
    intro k seen events hnd hsub
    have hcard : seen.length ≤ S.card := by
      have h1 : seen.toFinset ⊆ S := fun a ha => hsub a (List.mem_toFinset.mp ha)
      have h2 := Finset.card_le_card h1
      have h3 : seen.toFinset.card = seen.length := List.toFinset_card_of_nodup hnd
      omega
    by_cases hmem : produce k ∈ seen
    · simp only [sixgenRun]
      rw [if_neg (by omega), if_pos hmem]
      exact ih (k + 1) seen events hnd hsub
    · simp only [sixgenRun]
      rw [if_neg (by omega), if_neg hmem]
      refine ih (k + 1) (seen ++ [produce k]) (events ++ [1]) ?_ ?_
      · refine List.Nodup.append hnd (List.nodup_singleton _) ?_
        intro a ha hb
        simp only [List.mem_singleton] at hb
        subst hb
        exact hmem ha
      · intro x hx
        rcases List.mem_append.mp hx with h | h
        · exact hsub x h
        · simp only [List.mem_singleton] at h
          subst h
          exact hp k

/-! ## Claim theorems -/

/-- C1, counterexample: `SixForestTGA.generate` violates the claim.  With
`count = 2 ≥ 1`, the single pattern `"200*"` (one wildcard, 16 possible
fills, so a candidate space of size `16 ≥ count`) and a digit stream that
draws 'a' twice, the loop returns the two equal strings "200a", "200a" —
`count` addresses, but not pairwise distinct. -/
theorem sixforest_generate_duplicate_output :
    sixforest_generate constA ["200*"] 2 3 = some ["200a", "200a"] ∧
    ¬ (["200a", "200a"] : List String).Nodup ∧ (1 : Nat) ≤ 2 := by
  decide

/-- C1, amended: the deduplicating unique-sample loops do return exactly
`count` pairwise-distinct strings, but only once enough distinct candidates
have arrived within their attempt budget: `SixGenTGA.generate` (unbounded
loop) once the stream has offered `count` distinct values in its first `n`
draws, and `LSTMIPv6TGA.generate_unique` provided `count` distinct values
occur within its `count * 100`-attempt budget.  (`SixForestTGA.generate`,
which does not deduplicate, satisfies no such property — see the
counterexample.) -/
theorem unique_sample_exact_count_amended (produce : Nat → String)
    (count n : Nat) (h1 : 1 ≤ count)
    (h2 : count ≤ (producedWindow produce 0 n).toFinset.card)
    (h3 : count ≤ (producedWindow produce 0 (count * 100)).toFinset.card) :
    (∃ s ev, sixgen_generate produce count n = some (s, ev) ∧
      s.Nodup ∧ s.length = count) ∧
    (lstm_generate_unique produce count).Nodup ∧
    (lstm_generate_unique produce count).length = count := by
  refine ⟨?_, ?_, ?_⟩
  · exact sixgenRun_complete produce count n 0 [] [] List.nodup_nil
      (by simp) (by simpa using h2)
  · exact (lstmRun_complete produce count (count * 100) 0 [] List.nodup_nil
      (by simp) (by simpa using h3)).1
  · exact (lstmRun_complete produce count (count * 100) 0 [] List.nodup_nil
      (by simp) (by simpa using h3)).2

/-- C1, witness: the amended theorem applied to the producer that yields
"a" then "b" forever, with `count = 2`. -/
theorem unique_sample_exact_count_amended_instance :
    ((1 : Nat) ≤ 2 ∧ 2 ≤ (producedWindow abProduce 0 2).toFinset.card ∧
      2 ≤ (producedWindow abProduce 0 (2 * 100)).toFinset.card) ∧
    ((∃ s ev, sixgen_generate abProduce 2 2 = some (s, ev) ∧
        s.Nodup ∧ s.length = 2) ∧
      (lstm_generate_unique abProduce 2).Nodup ∧
      (lstm_generate_unique abProduce 2).length = 2) :=
  ⟨⟨by decide, by decide, by decide⟩,
    unique_sample_exact_count_amended abProduce 2 2 (by decide) (by decide)
      (by decide)⟩

/-- C2: with a candidate space of size `M = 2` (the alternating "a"/"b"
producer) and `count = 5`, neither cited behaviour matches the claim:
`SixGenTGA.generate` never terminates (no amount of loop fuel makes it
return), and `LSTMIPv6TGA.generate_unique` stops after its
`count * 100 = 500` attempts but hands back the partial list ["a", "b"]
instead of failing with `InsufficientCandidates` (which exists nowhere in
the source). -/
theorem unique_sample_unbounded_loop :
    (∀ fuel, sixgen_generate altProduce 5 fuel = none) ∧
    lstm_generate_unique altProduce 5 = ["a", "b"] := by
  constructor
  · intro fuel
    refine sixgenRun_bounded altProduce 5 {"a", "b"} (by decide) ?_
      fuel 0 [] [] List.nodup_nil (by simp)
    intro n
    by_cases h : n % 2 = 0 <;> simp [altProduce, h]
  · decide

/-- C3, counterexample: on a producer that only ever yields "a" and
`count = 2`, `LSTMIPv6TGA.generate_unique` does not succeed with 2 unique
addresses, yet the caller receives the partial one-element list ["a"] —
not an error. -/
theorem unique_sample_partial_result_returned :
    lstm_generate_unique (fun _ => "a") 2 = ["a"] ∧
    (lstm_generate_unique (fun _ => "a") 2).length < 2 := by
  decide

/-- C3, amended: when `LSTMIPv6TGA.generate_unique` cannot reach `count`
unique addresses (fewer than `count` distinct candidates occur within its
`count * 100`-attempt budget), it returns the partial duplicate-free list
of the addresses found — strictly fewer than `count` of them — rather than
an error; its return type has no failure path at all. -/
theorem unique_sample_partial_on_exhaustion (produce : Nat → String)
    (count : Nat)
    (h : (producedWindow produce 0 (count * 100)).toFinset.card < count) :
    (lstm_generate_unique produce count).length < count ∧
    (lstm_generate_unique produce count).Nodup := by
  have hns := lstmRun_nodup_subset produce count (count * 100) 0 [] List.nodup_nil
  constructor
  · have hcard : (lstmRun produce count 0 (count * 100) []).toFinset.card ≤
        (producedWindow produce 0 (count * 100)).toFinset.card := by
      refine Finset.card_le_card (hns.2.trans ?_)
      simp
    have hlen := List.toFinset_card_of_nodup hns.1
    show (lstmRun produce count 0 (count * 100) []).length < count
    omega
  · exact hns.1

/-- C3, witness: the amended theorem applied to the constant "b" producer
with `count = 2`. -/
theorem unique_sample_partial_on_exhaustion_instance :
    (producedWindow (fun _ => "b") 0 (2 * 100)).toFinset.card < 2 ∧
    ((lstm_generate_unique (fun _ => "b") 2).length < 2 ∧
      (lstm_generate_unique (fun _ => "b") 2).Nodup) :=
  ⟨by decide, unique_sample_partial_on_exhaustion (fun _ => "b") 2 (by decide)⟩

/-- C4, counterexample: in the rmap registry a second registration of the
same ("tga", "X") key does not fail — it merely sets the warning flag and
overrides, so the subsequent lookup returns the new factory `2`, not the
originally registered `1`. -/
theorem rmap_duplicate_registration_overrides :
    (rmap_register "tga" "X" (2 : Nat) (rmap_register "tga" "X" 1 []).1).2 = true ∧
    regLookup (rmap_register "tga" "X" (2 : Nat)
      (rmap_register "tga" "X" 1 []).1).1 "tga" "X" = some 2 ∧
    (2 : Nat) ≠ 1 := by
  decide

/-- C4, amended: the ipv6kit registry (src/core/registry.py) is strict —
re-registering a `(kind, name)` already present fails with the duplicate
error for every factory, and any registration that does succeed leaves
every existing lookup unchanged, so a registered factory is returned for
the registry's whole lifetime.  The rmap registry
(src/python/rmap/core/registry.py) instead warns and overrides (see the
counterexample). -/
theorem ipv6kit_registry_strict_and_stable {F : Type} (reg : Registry F)
    (kind name : String) (g : F)
    (hk : kind ∈ PLUGIN_KINDS)
    (hl : regLookup reg kind name = some g) :
    (∀ f : F, ipv6kit_register kind name f reg = .error .duplicateRegistration) ∧
    (∀ (k' n' : String) (f' : F) (reg' : Registry F),
      ipv6kit_register k' n' f' reg = .ok reg' →
      regLookup reg' kind name = some g) := by
  constructor
  · intro f
    simp only [ipv6kit_register, if_pos hk, hl]
  · intro k' n' f' reg' hreg
    simp only [ipv6kit_register] at hreg
    by_cases hk' : k' ∈ PLUGIN_KINDS
    · rw [if_pos hk'] at hreg
      cases hlook : regLookup reg k' n' with
      | some fOld =>
        rw [hlook] at hreg
        exact Except.noConfusion hreg
      | none =>
        rw [hlook] at hreg
        injection hreg with hreg'
        subst hreg'
        simp only [regLookup]
        by_cases heq : k' = kind ∧ n' = name
        · obtain ⟨hx, hy⟩ := heq
          subst hx
          subst hy
          rw [hlook] at hl
          exact Option.noConfusion hl
        · rw [if_neg heq]
          exact hl
    · rw [if_neg hk'] at hreg
      exact Except.noConfusion hreg

/-- C4, witness: the amended theorem applied to a one-entry registry over
`Nat` factories. -/
theorem ipv6kit_registry_strict_and_stable_instance :
    ("tga" ∈ PLUGIN_KINDS ∧
      regLookup ([(("tga", "A"), (7 : Nat))] : Registry Nat) "tga" "A" = some 7) ∧
    ((∀ f : Nat, ipv6kit_register "tga" "A" f
        ([(("tga", "A"), 7)] : Registry Nat) = .error .duplicateRegistration) ∧
      (∀ (k' n' : String) (f' : Nat) (reg' : Registry Nat),
        ipv6kit_register k' n' f' ([(("tga", "A"), 7)] : Registry Nat) = .ok reg' →
        regLookup reg' "tga" "A" = some 7)) :=
  ⟨⟨by decide, by decide⟩,
    ipv6kit_registry_strict_and_stable ([(("tga", "A"), 7)] : Registry Nat)
      "tga" "A" 7 (by decide) (by decide)⟩

/-- C5, counterexample: with a trained model present and `count = 0`,
`LSTMIPv6TGA.generate_unique` does not fail with `InvalidCount` (or any
error): it returns the empty list. -/
theorem generate_zero_count_returns_empty :
    lstm_generate_unique_m (some (fun _ => "x")) 0 = .ok [] ∧
    lstm_generate_unique_m (some (fun _ => "x")) 0 ≠ .error .invalidCount ∧
    lstm_generate_unique_m (some (fun _ => "x")) 0 ≠ .error .valueError := by
  refine ⟨rfl, ?_, ?_⟩ <;> intro h <;>
    exact Except.noConfusion
      (show (Except.ok ([] : List String) : Except PyError (List String)) =
        .error _ from h)

/-- C5, amended: calling `generate_unique` before a model has been trained
fails with `ValueError` ("Model not trained"), and with a trained model a
`count` of 0 returns the empty list with no error — the source raises no
`InvalidCount`. -/
theorem static_tga_precondition_amended (count : Nat) (produce : Nat → String) :
    lstm_generate_unique_m none count = .error .valueError ∧
    lstm_generate_unique_m (some produce) 0 = .ok [] :=
  ⟨rfl, rfl⟩

/-- C6: calling `BaseZmap6Scanner.scan` with an empty address list never
returns the intended empty `ScanResultSet`: it raises.  Against the
`rmap.core.plugin.BasePlugin` the class actually extends (`helpers = false`)
the call dies with `AttributeError` at `self.info(...)` (line 101); even
with the richer logging base of the sibling revision (`helpers = true`) it
dies with `NameError` at `if progress_cb:` (line 102), since `progress_cb`
is bound in no scope.  No filesystem state changes either way. -/
theorem zmap6_scan_empty_input_raises (helpers : Bool) (scanName nm : String)
    (descr : Option String) (fs : Fs) :
    zmap6_scan helpers scanName ⟨nm, descr, []⟩ fs =
      (.exn (if helpers then .nameError "progress_cb"
             else .attributeError "info"), fs) := by
  cases helpers <;> simp [zmap6_scan]

/-- C7, counterexample: `SixVecLM.generate` with `count = 2` and a first
batch ["a", "b"] accepts two new unique candidates but emits a single
progress event advancing by 2 (`pbar.update(len(unique_ips))`), not one
"advanced by 1" event per accepted candidate. -/
theorem sixveclm_progress_batch_increment :
    sixveclm_generate (fun _ => ["a", "b"]) 2 1 = some (["a", "b"], [2]) ∧
    ¬ ([2] = List.replicate 2 (1 : Nat)) := by
  decide

/-- C7, amended: in `SixGenTGA.generate` the claim holds — every run that
completes emits exactly one progress event of +1 per accepted unique
candidate, `count` unit events in total, so the progress callback receives
a positive increment exactly `count` times.  `SixVecLM.generate` instead
emits one event per batch advancing by the cumulative set size (see the
counterexample). -/
theorem sixgen_progress_unit_events (produce : Nat → String)
    (count fuel : Nat) (s : List String) (ev : List Nat)
    (h : sixgen_generate produce count fuel = some (s, ev)) :
    ev = List.replicate s.length (1 : Nat) ∧ s.length = count :=
  sixgenRun_events produce count fuel 0 [] [] s ev rfl (by simp) (by simp) h

/-- C7, witness: a completed run of the sixgen loop with `count = 1`. -/
theorem sixgen_progress_unit_events_instance :
    sixgen_generate (fun _ => "a") 1 1 = some (["a"], [1]) ∧
    ([1] = List.replicate (["a"] : List String).length (1 : Nat) ∧
      (["a"] : List String).length = 1) :=
  ⟨by decide, sixgen_progress_unit_events (fun _ => "a") 1 1 ["a"] [1] (by decide)⟩

/-- C9: dispatching to a plugin name missing from the registry fails
immediately — `main` exits with code 1 and runs no plugin action, and
`train_tga_from_addresses` raises the unknown-TGA error before parsing
addresses, training, or creating the temporary model file.  Both effect
traces are empty. -/
theorem unknown_plugin_no_side_effects {P M : Type} (tgas : List (String × P))
    (registry : List (String × (List String → M)))
    (action tgaName : String) (addresses : List String)
    (ha : action = "initialize" ∨ action = "train" ∨ action = "generate")
    (h1 : lookupName tgas tgaName = none)
    (h2 : lookupName registry tgaName = none) :
    main_dispatch tgas action tgaName = (.exited 1, []) ∧
    train_tga_from_addresses registry tgaName addresses =
      (.error .unknownTga, []) := by
  constructor
  · simp only [main_dispatch, if_pos ha, h1]
  · simp only [train_tga_from_addresses, h2]

/-- C9, witness: the dispatch theorem applied to empty registries and the
name "NoSuchTGA" with the "train" action. -/
theorem unknown_plugin_no_side_effects_instance :
    (("train" = "initialize" ∨ "train" = "train" ∨ "train" = "generate") ∧
      lookupName ([] : List (String × Nat)) "NoSuchTGA" = none ∧
      lookupName ([] : List (String × (List String → Nat))) "NoSuchTGA" = none) ∧
    (main_dispatch ([] : List (String × Nat)) "train" "NoSuchTGA" =
        (.exited 1, []) ∧
      train_tga_from_addresses ([] : List (String × (List String → Nat)))
        "NoSuchTGA" [] = (.error .unknownTga, [])) :=
  ⟨⟨Or.inr (Or.inl rfl), rfl, rfl⟩,
    unknown_plugin_no_side_effects ([] : List (String × Nat))
      ([] : List (String × (List String → Nat))) "train" "NoSuchTGA" []
      (Or.inr (Or.inl rfl)) rfl rfl⟩

/-- C10: for every non-empty input, every temporary file
`BaseZmap6Scanner.scan` creates is deleted again before the call returns,
whatever else happens: without the helper methods the call raises before
creating any file, and with them the `finally:` block removes both the
target file and the output file before the exception propagates — the
filesystem ends exactly as it started. -/
theorem zmap6_scan_temp_files_removed (helpers : Bool) (scanName : String)
    (data : AddressSet) (fs : Fs)
    (hne : data.addresses ≠ [])
    (hwf : ∀ i ∈ fs.live, i < fs.next) :
    ((zmap6_scan helpers scanName data fs).2).live = fs.live := by
  have hempty : data.addresses.isEmpty = false := by
    cases hl : data.addresses with
    | nil => exact absurd hl hne
    | cons a l => simp
  cases helpers with
  | false => simp [zmap6_scan, hempty]
  | true =>
    have hn1 : fs.next ∉ fs.live := fun hmem => by
      have := hwf _ hmem
      omega
    have hn2 : fs.next + 1 ∉ fs.live := fun hmem => by
      have := hwf _ hmem
      omega
    simp only [zmap6_scan, hempty, Bool.false_eq_true, if_false, fsCreate,
      osRemove]
    rw [List.append_assoc, List.erase_append_right _ hn1]
    simp only [List.singleton_append, List.erase_cons_head]
    rw [List.erase_append_right _ hn2]
    simp

/-- C10, witness: the cleanup theorem applied to a one-address scan on an
initially empty temporary directory. -/
theorem zmap6_scan_temp_files_removed_instance :
    ((["2001:db8::1"] : List String) ≠ [] ∧
      (∀ i ∈ (⟨[], 0⟩ : Fs).live, i < (⟨[], 0⟩ : Fs).next)) ∧
    ((zmap6_scan true "icmp" ⟨"s", none, ["2001:db8::1"]⟩ ⟨[], 0⟩).2).live =
      (⟨[], 0⟩ : Fs).live :=
  ⟨⟨by decide, by simp⟩,
    zmap6_scan_temp_files_removed true "icmp" ⟨"s", none, ["2001:db8::1"]⟩
      ⟨[], 0⟩ (by decide) (by simp)⟩

/-- Successful runs of `TGA._initialize_python` always leave the venv in the
canonical state for the requested version and architecture (with a working
python binary), and imply the version string was well-formed. -/
theorem tga_initialize_python_ok_shape (v : String) (deps : List String)
    (rosetta : Bool) (rc : Bool) (sv : Option VenvState) (s2 : TgaState)
    (t : List Eff)
    (h : tga_initialize_python v deps rosetta ⟨rc, sv⟩ = .ok (s2, t)) :
    s2 = ⟨rc, some ⟨v, rosetta, true⟩⟩ ∧ countDots v = 2 := by
  by_cases hd : countDots v = 2
  · refine ⟨?_, hd⟩
    cases sv with
    | none =>
      simp [tga_initialize_python, hd] at h
      exact h.1.symm
    | some vs =>
      by_cases hrm : vs.binOk = true ∧ (vs.version ≠ v ∨ vs.x86 ≠ rosetta)
      · simp [tga_initialize_python, hd, hrm] at h
        exact h.1.symm
      · by_cases hbin : vs.binOk = true
        · have hv1 : vs.version = v := by
            by_contra hne
            exact hrm ⟨hbin, Or.inl hne⟩
          have hv2 : vs.x86 = rosetta := by
            by_contra hne
            exact hrm ⟨hbin, Or.inr hne⟩
          obtain ⟨vv, vx, vb⟩ := vs
          simp only at hv1 hv2 hbin
          subst hv1
          subst hv2
          subst hbin
          simp [tga_initialize_python, hd] at h
          exact h.1.symm
        · simp [tga_initialize_python, hd, hrm, hbin] at h
  · simp [tga_initialize_python, hd] at h

/-- C8: setup is idempotent.  Whenever a first `tga_setup` (clone +
`_initialize_python`) succeeds and yields state `s1`, running it again on
`s1` succeeds with exactly the same state, and the second run performs no
provisioning: it re-clones nothing, removes no venv and creates no venv —
its only commands are the idempotent `pyenv install --skip-existing` and
the dependency `pip install`, which leave the state untouched. -/
theorem tga_setup_idempotent (v : String) (deps : List String) (rosetta : Bool)
    (s s1 : TgaState) (t1 : List Eff)
    (h : tga_setup v deps rosetta s = .ok (s1, t1)) :
    tga_setup v deps rosetta s1 =
      .ok (s1, [Eff.pyenvInstall v, Eff.pipInstall (deps ++ ["tqdm"])]) ∧
    Eff.gitClone ∉ [Eff.pyenvInstall v, Eff.pipInstall (deps ++ ["tqdm"])] ∧
    Eff.rmRfVenv ∉ [Eff.pyenvInstall v, Eff.pipInstall (deps ++ ["tqdm"])] ∧
    ∀ (v' : String) (x' : Bool),
      Eff.createVenv v' x' ∉
        [Eff.pyenvInstall v, Eff.pipInstall (deps ++ ["tqdm"])] := by
  obtain ⟨rc, sv⟩ := s
  have hclone : (tga_clone ⟨rc, sv⟩).1 = ⟨true, sv⟩ := by
    cases rc <;> simp [tga_clone]
  simp only [tga_setup] at h
  rw [hclone] at h
  cases hinit : tga_initialize_python v deps rosetta ⟨true, sv⟩ with
  | error e =>
    rw [hinit] at h
    exact Except.noConfusion h
  | ok st =>
    obtain ⟨s2, t2⟩ := st
    rw [hinit] at h
    injection h with h'
    injection h' with hs ht
    obtain ⟨hshape, hdots⟩ :=
      tga_initialize_python_ok_shape v deps rosetta true sv s2 t2 hinit
    subst hs
    subst hshape
    refine ⟨?_, by simp, by simp, ?_⟩
    · simp [tga_setup, tga_clone, tga_initialize_python, hdots]
    · intro v' x'
      simp

/-- C8, witness: a first setup from the unprovisioned state (clone, venv
creation, pip install), then the idempotence theorem applied to its
result. -/
theorem tga_setup_idempotent_instance :
    tga_setup "3.9.6" ["numpy"] false ⟨false, none⟩ =
      .ok (⟨true, some ⟨"3.9.6", false, true⟩⟩,
        [Eff.gitClone, Eff.pyenvInstall "3.9.6", Eff.createVenv "3.9.6" false,
         Eff.pipInstall ["numpy", "tqdm"]]) ∧
    (tga_setup "3.9.6" ["numpy"] false ⟨true, some ⟨"3.9.6", false, true⟩⟩ =
        .ok (⟨true, some ⟨"3.9.6", false, true⟩⟩,
          [Eff.pyenvInstall "3.9.6", Eff.pipInstall (["numpy"] ++ ["tqdm"])]) ∧
      Eff.gitClone ∉
        [Eff.pyenvInstall "3.9.6", Eff.pipInstall (["numpy"] ++ ["tqdm"])] ∧
      Eff.rmRfVenv ∉
        [Eff.pyenvInstall "3.9.6", Eff.pipInstall (["numpy"] ++ ["tqdm"])] ∧
      ∀ (v' : String) (x' : Bool),
        Eff.createVenv v' x' ∉
          [Eff.pyenvInstall "3.9.6", Eff.pipInstall (["numpy"] ++ ["tqdm"])]) :=
  ⟨rfl,
    tga_setup_idempotent "3.9.6" ["numpy"] false ⟨false, none⟩
      ⟨true, some ⟨"3.9.6", false, true⟩⟩
      [Eff.gitClone, Eff.pyenvInstall "3.9.6", Eff.createVenv "3.9.6" false,
       Eff.pipInstall ["numpy", "tqdm"]] rfl⟩
